import Mathlib

/-!
Verification of the sync-readme content synchronization pipeline
(`src/commands/sync-readme.ts`) and its HTTP download helper
(`src/utils/download-github.ts`).

The embedding works over explicit oracles for the external collaborators
(HTTP server responses, fallback-file reads); filesystem writes are
collected as `(path, content)` pairs.
-/

namespace MintlifySync

/-! ## Content Transformer: `SyncReadme.cleanMarkdownForMDX`

The source applies four global regex replacements in order:
1. `/<!--[\s\S]*?-->/g` → `""` (strip HTML comments, non-greedy)
2. `/<br>/g` → `"<br />"`
3. `/<hr>/g` → `"<hr />"`
4. `/<img ([^>]+)>/g` → `"<img $1 />"`

Each is embedded as a left-to-right scanner over `List Char` with the
JavaScript `String.replace` semantics: after a match, scanning resumes
after the replaced span (replaced text is not rescanned).
-/

/-- Scan for the earliest `-->`; on success return the suffix after it
(the lazy `[\s\S]*?` of the comment regex matches up to the earliest
closer). -/
def dropComment : List Char → Option (List Char)
  | '-' :: '-' :: '>' :: rest => some rest
  | _ :: rest => dropComment rest
  | [] => none

theorem dropComment_length : ∀ (l : List Char), ∀ rest, dropComment l = some rest →
    rest.length < l.length := by
  intro l
  induction l using dropComment.induct with
  | case1 rest' =>
    intro rest h
    simp only [dropComment, Option.some.injEq] at h
    subst h
    simp only [List.length_cons]
    omega
  | case2 head tail hne ih =>
    intro rest h
    unfold dropComment at h
    split at h
    · rename_i r heq
      injection heq with h1 h2
      exact absurd (hne r h1 h2) id
    · rename_i c r heq
      injection heq with h1 h2
      subst h2
      have := ih rest h
      simp only [List.length_cons]
      omega
    · exact absurd h (by simp)
  | case3 => intro rest h; simp [dropComment] at h

/-- Stage 1: strip `<!-- ... -->` comments (global, non-greedy).  When a
`<!--` has no matching `-->` anywhere after it, the regex has no match at
or after that position (a later opener would need a closer even further
right), so the remainder is returned unchanged. -/
def stripComments : List Char → List Char
  | '<' :: '!' :: '-' :: '-' :: rest =>
    match h : dropComment rest with
    | some rest2 => stripComments rest2
    | none => '<' :: '!' :: '-' :: '-' :: rest
  | c :: rest => c :: stripComments rest
  | [] => []
termination_by l => l.length
decreasing_by
  · have := dropComment_length rest rest2 h
    simp only [List.length_cons]
    omega
  · simp only [List.length_cons]
    omega

/-- Stage 2: replace every literal `<br>` with `<br />`. -/
def replaceBr : List Char → List Char
  | '<' :: 'b' :: 'r' :: '>' :: rest => '<' :: 'b' :: 'r' :: ' ' :: '/' :: '>' :: replaceBr rest
  | c :: rest => c :: replaceBr rest
  | [] => []

/-- Stage 3: replace every literal `<hr>` with `<hr />`. -/
def replaceHr : List Char → List Char
  | '<' :: 'h' :: 'r' :: '>' :: rest => '<' :: 'h' :: 'r' :: ' ' :: '/' :: '>' :: replaceHr rest
  | c :: rest => c :: replaceHr rest
  | [] => []

/-- Split at the first `>`: `takeToGt l = some (pre, post)` when
`l = pre ++ '>' :: post` with `pre` free of `>`.  This is the greedy
`([^>]+)` followed by `>` of the img regex: the capture runs up to the
first `>`. -/
def takeToGt : List Char → Option (List Char × List Char)
  | [] => none
  | '>' :: rest => some ([], rest)
  | c :: rest =>
    match takeToGt rest with
    | some (pre, post) => some (c :: pre, post)
    | none => none

theorem takeToGt_length : ∀ (l : List Char), ∀ pre post, takeToGt l = some (pre, post) →
    post.length < l.length := by
  intro l
  induction l using takeToGt.induct with
  | case1 => intro pre post h; simp [takeToGt] at h
  | case2 rest =>
    intro pre post h
    simp only [takeToGt, Option.some.injEq, Prod.mk.injEq] at h
    obtain ⟨-, h2⟩ := h
    subst h2
    simp only [List.length_cons]
    omega
  | case3 c rest hne p q heq ih =>
    intro pre post h
    unfold takeToGt at h
    split at h
    · exact absurd h (by simp)
    · rename_i r heq2
      injection heq2 with h1 h2
      exact absurd (hne h1) id
    · rename_i l c' rest' hne' heqcons
      injection heqcons with hc hr
      subst hc; subst hr
      rw [heq] at h
      simp only [Option.some.injEq, Prod.mk.injEq] at h
      obtain ⟨-, h2⟩ := h
      subst h2
      have := ih p q heq
      simp only [List.length_cons]
      omega
  | case4 c rest hne heq ih =>
    intro pre post h
    unfold takeToGt at h
    split at h
    · exact absurd h (by simp)
    · rename_i r heq2
      injection heq2 with h1 h2
      exact absurd (hne h1) id
    · rename_i l c' rest' hne' heqcons
      injection heqcons with hc hr
      subst hc; subst hr
      rw [heq] at h
      exact absurd h (by simp)

/-- Stage 4: rewrite `<img attrs>` to `<img attrs />` where `attrs` is one
or more non-`>` characters (regex `/<img ([^>]+)>/g`).  When the character
right after `"<img "` is already `>` the capture `[^>]+` cannot match, and
when no `>` follows at all no match exists anywhere later (every match
needs a `>`), so those spans are left unchanged. -/
def replaceImg : List Char → List Char
  | '<' :: 'i' :: 'm' :: 'g' :: ' ' :: rest =>
    match h : takeToGt rest with
    | some (pre, post) =>
      if pre = [] then '<' :: 'i' :: 'm' :: 'g' :: ' ' :: replaceImg rest
      else '<' :: 'i' :: 'm' :: 'g' :: ' ' :: (pre ++ ' ' :: '/' :: '>' :: replaceImg post)
    | none => '<' :: 'i' :: 'm' :: 'g' :: ' ' :: rest
  | c :: rest => c :: replaceImg rest
  | [] => []
termination_by l => l.length
decreasing_by
  · simp only [List.length_cons]
    omega
  · have := takeToGt_length rest pre post h
    simp only [List.length_cons]
    omega
  · simp only [List.length_cons]
    omega

/-- The function `SyncReadme.cleanMarkdownForMDX` on character lists: the four
replacements chained in source order. -/
def cleanMarkdownForMDXL (l : List Char) : List Char :=
  replaceImg (replaceHr (replaceBr (stripComments l)))

/-- The function `SyncReadme.cleanMarkdownForMDX`: clean Markdown content for MDX
compatibility. -/
def cleanMarkdownForMDX (s : String) : String :=
  ⟨cleanMarkdownForMDXL s.data⟩

/-! ### Trigger scanners

`hasX l = true` iff the corresponding replacement stage has a match in
`l`; each scanner mirrors the structure of its replacement function. -/

/-- Whether the comment regex `<!--[\s\S]*?-->` has a match. -/
def hasComment : List Char → Bool
  | '<' :: '!' :: '-' :: '-' :: rest => (dropComment rest).isSome
  | _ :: rest => hasComment rest
  | [] => false

/-- Whether the literal `<br>` occurs. -/
def hasBr : List Char → Bool
  | '<' :: 'b' :: 'r' :: '>' :: _ => true
  | _ :: rest => hasBr rest
  | [] => false

/-- Whether the literal `<hr>` occurs. -/
def hasHr : List Char → Bool
  | '<' :: 'h' :: 'r' :: '>' :: _ => true
  | _ :: rest => hasHr rest
  | [] => false

/-- Whether the img regex `<img ([^>]+)>` has a match. -/
def hasImg : List Char → Bool
  | '<' :: 'i' :: 'm' :: 'g' :: ' ' :: rest =>
    match takeToGt rest with
    | some (pre, _) => if pre = [] then hasImg rest else true
    | none => false
  | _ :: rest => hasImg rest
  | [] => false
termination_by l => l.length
decreasing_by
  · simp only [List.length_cons]; omega
  · simp only [List.length_cons]; omega

/-- No replacement stage has a match in `l`. -/
def noTriggers (l : List Char) : Bool :=
  !hasComment l && !hasBr l && !hasHr l && !hasImg l

theorem stripComments_id : ∀ (l : List Char), hasComment l = false → stripComments l = l := by
  intro l
  induction l using stripComments.induct with
  | case1 rest rest2 heq ih =>
    intro h
    simp only [hasComment] at h
    rw [heq] at h
    simp at h
  | case2 rest heq =>
    intro _
    simp only [stripComments]
    split
    · rename_i r2 heq2
      rw [heq] at heq2
      exact absurd heq2 (by simp)
    · rfl
  | case3 c rest hne ih =>
    intro h
    have hr : hasComment rest = false := by
      unfold hasComment at h
      split at h
      · rename_i r heqc
        injection heqc with h1 h2
        exact absurd (hne r h1 h2) id
      · rename_i hd tl heqc
        injection heqc with h1 h2
        subst h2
        exact h
      · rename_i heqc
        exact absurd heqc (by simp)
    unfold stripComments
    split
    · rename_i r heqc
      injection heqc with h1 h2
      exact absurd (hne r h1 h2) id
    · rename_i c' r heqc
      injection heqc with h1 h2
      subst h1; subst h2
      rw [ih hr]
    · rename_i heqc
      exact absurd heqc (by simp)
  | case4 => intro _; simp [stripComments]

theorem replaceBr_id : ∀ (l : List Char), hasBr l = false → replaceBr l = l := by
  intro l
  induction l using replaceBr.induct with
  | case1 rest ih =>
    intro h
    simp [hasBr] at h
  | case2 c rest hne ih =>
    intro h
    have hr : hasBr rest = false := by
      unfold hasBr at h
      split at h
      · exact absurd h (by simp)
      · rename_i hd tl heqc
        injection heqc with h1 h2
        subst h2
        exact h
      · rename_i heqc
        exact absurd heqc (by simp)
    unfold replaceBr
    split
    · rename_i r heqc
      injection heqc with h1 h2
      exact absurd (hne r h1 h2) id
    · rename_i c' r heqc
      injection heqc with h1 h2
      subst h1; subst h2
      rw [ih hr]
    · rename_i heqc
      exact absurd heqc (by simp)
  | case3 => intro _; rfl

theorem replaceHr_id : ∀ (l : List Char), hasHr l = false → replaceHr l = l := by
  intro l
  induction l using replaceHr.induct with
  | case1 rest ih =>
    intro h
    simp [hasHr] at h
  | case2 c rest hne ih =>
    intro h
    have hr : hasHr rest = false := by
      unfold hasHr at h
      split at h
      · exact absurd h (by simp)
      · rename_i hd tl heqc
        injection heqc with h1 h2
        subst h2
        exact h
      · rename_i heqc
        exact absurd heqc (by simp)
    unfold replaceHr
    split
    · rename_i r heqc
      injection heqc with h1 h2
      exact absurd (hne r h1 h2) id
    · rename_i c' r heqc
      injection heqc with h1 h2
      subst h1; subst h2
      rw [ih hr]
    · rename_i heqc
      exact absurd heqc (by simp)
  | case3 => intro _; rfl

theorem replaceImg_id : ∀ (l : List Char), hasImg l = false → replaceImg l = l := by
  intro l
  induction l using replaceImg.induct with
  | case1 rest post heq ih =>
    -- `<img ` with a `>` later but an empty capture: no match here, scan on
    intro h
    have hr : hasImg rest = false := by
      simp only [hasImg] at h
      rw [heq] at h
      simpa using h
    simp only [replaceImg]
    split
    · rename_i p q heq2
      rw [heq] at heq2
      simp only [Option.some.injEq, Prod.mk.injEq] at heq2
      obtain ⟨h1, h2⟩ := heq2
      subst h1
      rw [if_pos rfl, ih hr]
    · rfl
  | case2 rest pre post heq hpre ih =>
    -- `<img attrs>` match: hasImg is true, contradiction
    intro h
    simp only [hasImg] at h
    rw [heq] at h
    simp [hpre] at h
  | case3 rest heq =>
    -- `<img ` with no `>` anywhere after: unchanged
    intro _
    simp only [replaceImg]
    split
    · rename_i p q heq2
      rw [heq] at heq2
      exact absurd heq2 (by simp)
    · rfl
  | case4 c rest hne ih =>
    intro h
    have hr : hasImg rest = false := by
      unfold hasImg at h
      split at h
      · rename_i r heqc
        injection heqc with h1 h2
        exact absurd (hne r h1 h2) id
      · rename_i hd tl heqc
        injection heqc with h1 h2
        subst h2
        exact h
      · rename_i heqc
        exact absurd heqc (by simp)
    unfold replaceImg
    split
    · rename_i r heqc
      injection heqc with h1 h2
      exact absurd (hne r h1 h2) id
    · rename_i c' r heqc
      injection heqc with h1 h2
      subst h1; subst h2
      rw [ih hr]
    · rename_i heqc
      exact absurd heqc (by simp)
  | case5 => intro _; simp [replaceImg]

/-- On trigger-free input every stage, hence the whole transformer, is the
identity. -/
theorem cleanMarkdownForMDXL_id (l : List Char) (h : noTriggers l = true) :
    cleanMarkdownForMDXL l = l := by
  simp only [noTriggers, Bool.and_eq_true, Bool.not_eq_true'] at h
  obtain ⟨⟨⟨hc, hb⟩, hh⟩, hi⟩ := h
  unfold cleanMarkdownForMDXL
  rw [stripComments_id l hc, replaceBr_id l hb, replaceHr_id l hh, replaceImg_id l hi]

/-! ## HTTP Content Fetcher: `DownloadGithub` (`src/utils/download-github.ts`)

The network is an external collaborator: it is modelled as an oracle
`server : String → HttpResp` mapping a URL to the response the request to
that URL produces (connection error and timeout included).  URL parsing
(`new URL(url)`) is likewise an oracle `parse : String → URLParts`.  The
functions return, next to the download outcome, the list of requests
actually issued, in order. -/

/-- The components of a WHATWG-parsed URL that the downloader could read
(`new URL(url)`). -/
structure URLParts where
  protocol : String
  hostname : String
  port : Option Nat
  pathname : String
  search : String
deriving DecidableEq

/-- One issued HTTP request.  The source builds its request options from
`hostname`, `pathname + search`, `method: 'GET'`, `headers` and `timeout`
only, and hands them to `https.get`, which always speaks TLS on the
default port 443 when the options carry no protocol and no port — hence
the constant `scheme`/`port` fields in `mkRequest`. -/
structure Request where
  scheme : String
  hostname : String
  port : Nat
  path : String
  method : String
  headers : List (String × String)
  timeout : Nat
deriving DecidableEq

/-- What the server does with a request to a given URL. -/
inductive HttpResp where
  | resp (statusCode : Nat) (statusMessage : String) (location : Option String) (body : String)
  | reqError (msg : String)
  | timedOut
deriving DecidableEq

/-- The `DownloadResult` interface of the source. -/
structure DownloadResult where
  content : String
  statusCode : Nat
  finalUrl : String
deriving DecidableEq

/-- The classified failures of the downloader; each constructor carries
the data interpolated into the thrown `Error`'s message. -/
inductive DlError where
  | authRequired
  | tooManyRedirects (maxRedirects : Nat)
  | redirectNoLocation (statusCode : Nat)
  | httpStatus (statusCode : Nat) (statusMessage : String) (url : String)
  | requestError (msg : String)
  | timeout (ms : Nat)
deriving DecidableEq

/-- JavaScript truthiness of the token (`undefined`, `null` and `""` are
falsy). -/
def tokenTruthy : Option String → Bool
  | none => false
  | some t => !t.isEmpty

/-- The request `_downloadRecursive` issues for one hop: GET over HTTPS
(default port), with `Authorization` and `User-Agent` headers exactly
when `isPrivate` and a truthy token are both present. -/
def mkRequest (u : URLParts) (token : Option String) (isPrivate : Bool) (timeout : Nat) :
    Request :=
  { scheme := "https"
    hostname := u.hostname
    port := 443
    path := u.pathname ++ u.search
    method := "GET"
    headers :=
      if isPrivate && tokenTruthy token then
        [("Authorization", "token " ++ token.getD ""), ("User-Agent", "Node.js-DownloadGithub")]
      else []
    timeout := timeout }

/-- The method `DownloadGithub._downloadRecursive`: bound check first (`redirectCount
>= maxRedirects` throws before any request), then one GET; `301/302/307/308`
recurses on the `Location` header with `redirectCount + 1` (no `Location`
is a failure), any other non-`200` status is a terminal failure, `200`
resolves with the body and the current URL as `finalUrl`. -/
def downloadRecursive (parse : String → URLParts) (server : String → HttpResp)
    (url : String) (token : Option String) (isPrivate : Bool)
    (maxRedirects redirectCount timeout : Nat) :
    Except DlError DownloadResult × List Request :=
  if h : redirectCount ≥ maxRedirects then
    (.error (.tooManyRedirects maxRedirects), [])
  else
    let req := mkRequest (parse url) token isPrivate timeout
    match server url with
    | .resp sc sm loc body =>
      if sc = 301 ∨ sc = 302 ∨ sc = 307 ∨ sc = 308 then
        match loc with
        | none => (.error (.redirectNoLocation sc), [req])
        | some redirectUrl =>
          let r := downloadRecursive parse server redirectUrl token isPrivate
            maxRedirects (redirectCount + 1) timeout
          (r.1, req :: r.2)
      else if sc ≠ 200 then
        (.error (.httpStatus sc sm url), [req])
      else
        (.ok ⟨body, sc, url⟩, [req])
    | .reqError m => (.error (.requestError m), [req])
    | .timedOut => (.error (.timeout timeout), [req])
termination_by maxRedirects - redirectCount
decreasing_by
  omega

/-- The `DownloadOptions` interface: all fields optional, `none` meaning absent
(JavaScript `undefined`), with the destructuring defaults applied in
`download`. -/
structure DownloadOptions where
  token : Option String := none
  isPrivate : Option Bool := none
  maxRedirects : Option Nat := none
  timeout : Option Nat := none
deriving DecidableEq

/-- The method `DownloadGithub.download`: applies the option defaults (token falls
back to the instance token, `isPrivate = false`, `maxRedirects = 5`,
`timeout = 30000`), rejects a private fetch without truthy token before
issuing anything, then starts the recursion at `redirectCount = 0`. -/
def download (parse : String → URLParts) (server : String → HttpResp)
    (instToken : Option String) (url : String) (options : DownloadOptions) :
    Except DlError DownloadResult × List Request :=
  let token := match options.token with
    | none => instToken
    | some t => some t
  let isPrivate := options.isPrivate.getD false
  let maxRedirects := options.maxRedirects.getD 5
  let timeout := options.timeout.getD 30000
  if isPrivate && !tokenTruthy token then
    (.error .authRequired, [])
  else
    downloadRecursive parse server url token isPrivate maxRedirects 0 timeout

/-- A linear redirect chain in the server oracle: from `u`, each URL in
`chain` is reached by a `302` redirect in turn, and the last one (or `u`
itself when `chain = []`) answers `200 OK` with `body`. -/
def isChain (server : String → HttpResp) : String → List String → String → Prop
  | u, [], body => server u = .resp 200 "OK" none body
  | u, v :: rest, body => server u = .resp 302 "Found" (some v) "" ∧ isChain server v rest body


/-! ## Source Synchronizer: `SyncReadme` (`src/commands/sync-readme.ts`)

The downloader is abstracted as an oracle `fetch : String → Bool →
Except String DownloadResult` (URL and `isPrivate` to outcome; a thrown
error is its message string, as caught by `syncSource`), the fallback
file read as `readFallback : Except String String`.  Writes are returned
as `(path, content)` pairs; `path.join a b` is modelled as `a ++ "/" ++ b`. -/

/-- One configured source (`{url, output, private}` in `config.sync.sources`;
the `private` field is called `isPrivate` here because `private` is a Lean
keyword). -/
structure Source where
  url : String
  output : String
  isPrivate : Bool
deriving DecidableEq

/-- The `SyncResult` interface of the source: outcome of one source. -/
structure SyncResult where
  url : String
  output : String
  success : Bool
  error : Option String
deriving DecidableEq

/-- The `SyncSummary` interface of the source. -/
structure SyncSummary where
  success : Nat
  failed : Nat
  total : Nat
  results : List SyncResult
deriving DecidableEq

/-- The hardcoded placeholder `getFallbackContent` returns when reading
the fallback file fails. -/
def fallbackPlaceholder : String :=
  "# Content not available\n\nThe requested content could not be synchronized."

/-- The method `SyncReadme.getFallbackContent`: the fallback file's text, or the
placeholder when the read fails. -/
def getFallbackContent (readFallback : Except String String) : String :=
  match readFallback with
  | .ok s => s
  | .error _ => fallbackPlaceholder

/-- Model of JavaScript `String.prototype.endsWith` (used as
`output.endsWith('.mdx')` etc. in `syncSource`). -/
def strEndsWith (s pat : String) : Bool :=
  pat.data.isSuffixOf s.data

/-- The method `SyncReadme.syncSource`: fetch; on success transform iff the output
path ends in `.mdx` or `.md` and write the result; on any fetch failure
write the fallback content instead; always report one `SyncResult` and
perform exactly one write to `cacheDir/output`. -/
def syncSource (fetch : String → Bool → Except String DownloadResult)
    (readFallback : Except String String) (cacheDir : String)
    (url output : String) (isPrivate : Bool) :
    SyncResult × (String × String) :=
  let outputPath := cacheDir ++ "/" ++ output
  match fetch url isPrivate with
  | .ok result =>
    let content :=
      if strEndsWith output ".mdx" || strEndsWith output ".md" then
        cleanMarkdownForMDX result.content
      else
        result.content
    ({url := url, output := output, success := true, error := none}, (outputPath, content))
  | .error errorMessage =>
    let fallbackContent := getFallbackContent readFallback
    ({url := url, output := output, success := false, error := some errorMessage},
      (outputPath, fallbackContent))

/-- The method `SyncReadme.syncAll`: early return on an empty source list, otherwise
process every source in order and aggregate the counts.  Returns the
summary together with all writes performed, in order. -/
def syncAll (fetch : String → Bool → Except String DownloadResult)
    (readFallback : Except String String) (cacheDir : String)
    (sources : List Source) : SyncSummary × List (String × String) :=
  if sources.length = 0 then
    ({success := 0, failed := 0, total := 0, results := []}, [])
  else
    let pairs := sources.map fun s => syncSource fetch readFallback cacheDir s.url s.output s.isPrivate
    let results := pairs.map Prod.fst
    let successCount := (results.filter fun r => r.success).length
    let failedCount := (results.filter fun r => !r.success).length
    ({success := successCount, failed := failedCount, total := sources.length,
      results := results}, pairs.map Prod.snd)

/-- The exit code of `SyncReadme.run`: `syncAll` itself aborts with exit
code 1 when at least one source failed and none succeeded (its
`this.error('All sources failed to synchronize', {exit: 1})`, which
`run`'s catch re-raises with exit 1); otherwise `run` exits 1 when
`summary.failed === summary.total` and 0 otherwise. -/
def runExitCode (fetch : String → Bool → Except String DownloadResult)
    (readFallback : Except String String) (cacheDir : String)
    (sources : List Source) : Nat :=
  let summary := (syncAll fetch readFallback cacheDir sources).1
  if summary.failed > 0 && summary.success == 0 then 1
  else if summary.failed == summary.total then 1
  else 0


/-! ## Demo oracles used by concrete witnesses and counterexamples -/

/-- A trivial URL parser oracle. -/
def demoParse : String → URLParts := fun u => ⟨"https:", u, none, "/", ""⟩

/-- A server whose chain from `u0` has five `302` hops before the `200`. -/
def chainServer5 : String → HttpResp := fun u =>
  if u = "u0" then .resp 302 "Found" (some "u1") ""
  else if u = "u1" then .resp 302 "Found" (some "u2") ""
  else if u = "u2" then .resp 302 "Found" (some "u3") ""
  else if u = "u3" then .resp 302 "Found" (some "u4") ""
  else if u = "u4" then .resp 302 "Found" (some "u5") ""
  else .resp 200 "OK" none "payload"

/-- A downloader oracle that always succeeds with fixed content. -/
def fetchOkDemo : String → Bool → Except String DownloadResult :=
  fun _ _ => .ok ⟨"<br>x", 200, "u"⟩

/-- A downloader oracle that always fails. -/
def fetchErrDemo : String → Bool → Except String DownloadResult :=
  fun _ _ => .error "boom"

/-! ## Helper lemmas -/

theorem length_filter_add_length_filter_not {α : Type} (l : List α) (p : α → Bool) :
    (l.filter p).length + (l.filter fun x => !p x).length = l.length := by
  induction l with
  | nil => rfl
  | cons a l ih =>
    by_cases h : p a <;> simp [List.filter_cons, h] <;> omega

/-- For a public fetch the built request never carries headers and does
not depend on the token at all. -/
theorem mkRequest_public (u : URLParts) (tok : Option String) (ti : Nat) :
    mkRequest u tok false ti
      = { scheme := "https", hostname := u.hostname, port := 443,
          path := u.pathname ++ u.search, method := "GET", headers := [], timeout := ti } := by
  simp [mkRequest]

/-! ## Claim theorems -/

/-- Claim C1 (code bug): with zero configured sources `syncAll` does
return the trivial summary `total = 0, failed = 0, success = 0, results
= []`, but the run then exits with code 1, not 0: `run`'s check
`summary.failed === summary.total` has no `total > 0` guard, so `0 === 0`
triggers the "All synchronization tasks failed" exit-1 error. -/
theorem syncAll_empty_summary_exit
    (fetch : String → Bool → Except String DownloadResult)
    (rb : Except String String) (cd : String) :
    (syncAll fetch rb cd []).1 = { success := 0, failed := 0, total := 0, results := [] } ∧
    runExitCode fetch rb cd [] = 1 := by
  constructor
  · simp [syncAll]
  · simp [runExitCode, syncAll]

/-- Claim C4: when the Fetcher succeeds on a source, the single write of
`syncSource` goes to `cacheDir/output` and carries the transformed
content when the output path ends in `.mdx` or `.md`, and the raw
fetched content otherwise; the recorded outcome is a success without
error. -/
theorem syncSource_success_written
    (fetch : String → Bool → Except String DownloadResult)
    (rb : Except String String) (cd url output : String) (priv : Bool)
    (res : DownloadResult) (h : fetch url priv = .ok res) :
    (syncSource fetch rb cd url output priv).1
        = { url := url, output := output, success := true, error := none } ∧
    ((strEndsWith output ".mdx" || strEndsWith output ".md") = true →
      (syncSource fetch rb cd url output priv).2
          = (cd ++ "/" ++ output, cleanMarkdownForMDX res.content)) ∧
    ((strEndsWith output ".mdx" || strEndsWith output ".md") = false →
      (syncSource fetch rb cd url output priv).2
          = (cd ++ "/" ++ output, res.content)) := by
  refine ⟨?_, ?_, ?_⟩
  · simp [syncSource, h]
  · intro hm
    simp [syncSource, h, hm]
  · intro hm
    simp [syncSource, h, hm]

/-- Witness for C4 at a concrete input: a markup output (`a.md`) receives
the transformed content, a non-markup output (`a.json`) the raw content
verbatim even though it contains an HTML-comment-like text. -/
theorem syncSource_success_written_witness :
    fetchOkDemo "u" false = .ok ⟨"<br>x", 200, "u"⟩ ∧
    ((strEndsWith "a.md" ".mdx" || strEndsWith "a.md" ".md") = true) ∧
    (syncSource fetchOkDemo (.ok "FB") "cache" "u" "a.md" false).2
        = ("cache" ++ "/" ++ "a.md", cleanMarkdownForMDX "<br>x") ∧
    ((strEndsWith "a.json" ".mdx" || strEndsWith "a.json" ".md") = false) ∧
    (syncSource fetchOkDemo (.ok "FB") "cache" "u" "a.json" false).2
        = ("cache" ++ "/" ++ "a.json", "<br>x") := by
  refine ⟨rfl, by decide, ?_, by decide, ?_⟩
  · exact (syncSource_success_written fetchOkDemo (.ok "FB") "cache" "u" "a.md" false
      ⟨"<br>x", 200, "u"⟩ rfl).2.1 (by decide)
  · exact (syncSource_success_written fetchOkDemo (.ok "FB") "cache" "u" "a.json" false
      ⟨"<br>x", 200, "u"⟩ rfl).2.2 (by decide)

/-- Claim C5: when the Fetcher fails for any reason, `syncSource` writes
the fallback document's content — or the hardcoded placeholder when even
reading the fallback document fails — to the source's output path, and
records a failed outcome carrying the error message. -/
theorem syncSource_failure_fallback
    (fetch : String → Bool → Except String DownloadResult)
    (rb : Except String String) (cd url output : String) (priv : Bool)
    (msg : String) (h : fetch url priv = .error msg) :
    (syncSource fetch rb cd url output priv).1
        = { url := url, output := output, success := false, error := some msg } ∧
    (syncSource fetch rb cd url output priv).2
        = (cd ++ "/" ++ output, getFallbackContent rb) ∧
    (∀ doc, rb = .ok doc → getFallbackContent rb = doc) ∧
    (∀ e, rb = .error e → getFallbackContent rb = fallbackPlaceholder) := by
  refine ⟨?_, ?_, ?_, ?_⟩
  · simp [syncSource, h]
  · simp [syncSource, h]
  · intro doc hd
    simp [getFallbackContent, hd]
  · intro e he
    simp [getFallbackContent, he]

/-- Witness for C5 at a concrete input: with a failing fetch and an
unreadable fallback document, the placeholder is written and the outcome
carries the fetch error. -/
theorem syncSource_failure_fallback_witness :
    fetchErrDemo "u" false = .error "boom" ∧
    (syncSource fetchErrDemo (.error "nope") "cache" "u" "a.md" false).1
        = { url := "u", output := "a.md", success := false, error := some "boom" } ∧
    (syncSource fetchErrDemo (.error "nope") "cache" "u" "a.md" false).2
        = ("cache" ++ "/" ++ "a.md", fallbackPlaceholder) := by
  have H := syncSource_failure_fallback fetchErrDemo (.error "nope") "cache" "u" "a.md" false
    "boom" rfl
  refine ⟨rfl, H.1, ?_⟩
  rw [H.2.1, H.2.2.2 "nope" rfl]

/-- Claim C8: the run summary always satisfies `results.length = total =
sources.length` and `success + failed = total`. -/
theorem syncAll_summary_counts
    (fetch : String → Bool → Except String DownloadResult)
    (rb : Except String String) (cd : String) (sources : List Source) :
    (syncAll fetch rb cd sources).1.results.length = (syncAll fetch rb cd sources).1.total ∧
    (syncAll fetch rb cd sources).1.total = sources.length ∧
    (syncAll fetch rb cd sources).1.success + (syncAll fetch rb cd sources).1.failed
        = (syncAll fetch rb cd sources).1.total := by
  by_cases h : sources.length = 0
  · simp [syncAll, h]
  · simp only [syncAll, h, if_neg h]
    refine ⟨by simp, rfl, ?_⟩
    simpa using length_filter_add_length_filter_not
      ((sources.map fun s => syncSource fetch rb cd s.url s.output s.isPrivate).map Prod.fst)
      (fun r => r.success)

/-- Claim C9: `syncAll` attempts every source — each source produces
exactly one write to its output path whether its fetch succeeds or fails
— and the outcomes (and writes) appear in the summary in the same order
as the input sources. -/
theorem syncAll_ordered_complete
    (fetch : String → Bool → Except String DownloadResult)
    (rb : Except String String) (cd : String) (sources : List Source) :
    (syncAll fetch rb cd sources).1.results
        = sources.map (fun s => (syncSource fetch rb cd s.url s.output s.isPrivate).1) ∧
    (syncAll fetch rb cd sources).2
        = sources.map (fun s => (syncSource fetch rb cd s.url s.output s.isPrivate).2) := by
  by_cases h : sources.length = 0
  · have he : sources = [] := List.length_eq_zero.mp h
    subst he
    simp [syncAll]
  · simp only [syncAll, if_neg h, List.map_map]
    exact ⟨rfl, rfl⟩

/-- Claim C10: the issued request is built from the URL's hostname and
pathname-plus-search only, always over HTTPS on the default port 443:
two parsed URLs differing in scheme or explicit port (or in how the path
splits into pathname and search) produce the identical request. -/
theorem mkRequest_only_hostname_path
    (u1 u2 : URLParts) (tok : Option String) (priv : Bool) (ti : Nat)
    (hh : u1.hostname = u2.hostname)
    (hp : u1.pathname ++ u1.search = u2.pathname ++ u2.search) :
    mkRequest u1 tok priv ti = mkRequest u2 tok priv ti ∧
    (mkRequest u1 tok priv ti).scheme = "https" ∧
    (mkRequest u1 tok priv ti).port = 443 := by
  refine ⟨?_, rfl, rfl⟩
  simp [mkRequest, hh, hp]

/-- Witness for C10 at concrete inputs: an `http://example.com:8080/a?q`
parse and an `https://example.com/a?q` parse yield the same HTTPS
request on port 443. -/
theorem mkRequest_only_hostname_path_witness :
    mkRequest ⟨"http:", "example.com", some 8080, "/a", "?q"⟩ none false 30000
        = mkRequest ⟨"https:", "example.com", none, "/a", "?q"⟩ none false 30000 ∧
    (mkRequest ⟨"http:", "example.com", some 8080, "/a", "?q"⟩ none false 30000).scheme
        = "https" ∧
    (mkRequest ⟨"http:", "example.com", some 8080, "/a", "?q"⟩ none false 30000).port = 443 :=
  mkRequest_only_hostname_path _ _ none false 30000 rfl rfl


/-- A server that always answers `200 OK` immediately. -/
def okServer : String → HttpResp := fun _ => .resp 200 "OK" none "hello"

/-- Claim C6: a private download without a token — neither in the options
nor on the instance — fails with the auth-required error before any
request is issued (the request list is empty). -/
theorem download_private_no_token_auth
    (parse : String → URLParts) (server : String → HttpResp)
    (instTok : Option String) (url : String) (opts : DownloadOptions)
    (hp : opts.isPrivate = some true) (ht : opts.token = none) (hi : instTok = none) :
    download parse server instTok url opts = (.error .authRequired, []) := by
  subst hi
  simp [download, hp, ht, tokenTruthy]

/-- Witness for C6 at a concrete input: even against a server that would
answer 200 right away, a private download with no token anywhere fails
with the auth error and issues no request. -/
theorem download_private_no_token_auth_witness :
    ({ isPrivate := some true } : DownloadOptions).isPrivate = some true ∧
    ({ isPrivate := some true } : DownloadOptions).token = none ∧
    download demoParse okServer none "u0" { isPrivate := some true }
        = (.error .authRequired, []) :=
  ⟨rfl, rfl,
    download_private_no_token_auth demoParse okServer none "u0"
      { isPrivate := some true } rfl rfl rfl⟩

/-- Claim C7: authentication headers are attached only for private
fetches: a public request carries no headers at all, and the entire
observable behaviour of the downloader on a public fetch — every issued
request and the outcome — is identical for any two configured tokens. -/
theorem downloadRecursive_public_ignores_token :
    (∀ (u : URLParts) (tok : Option String) (ti : Nat),
        (mkRequest u tok false ti).headers = []) ∧
    ∀ (parse : String → URLParts) (server : String → HttpResp) (url : String)
      (t1 t2 : Option String) (maxR count t : Nat),
      downloadRecursive parse server url t1 false maxR count t
        = downloadRecursive parse server url t2 false maxR count t := by
  constructor
  · intro u tok ti
    simp [mkRequest]
  · intro parse server url t1 t2 maxR count t
    generalize hfuel : maxR - count = fuel
    induction fuel generalizing url count with
    | zero =>
      have hge : count ≥ maxR := by omega
      unfold downloadRecursive
      simp only [dif_pos hge]
    | succ n ihn =>
      by_cases hge : count ≥ maxR
      · unfold downloadRecursive
        simp only [dif_pos hge]
      · unfold downloadRecursive
        simp only [dif_neg hge, mkRequest_public]
        generalize server url = resp
        cases resp with
        | resp sc sm loc body =>
          simp only []
          split
          · cases loc with
            | none => rfl
            | some redirectUrl =>
              simp only []
              rw [ihn redirectUrl (count + 1) (by omega)]
          · rfl
        | reqError m => rfl
        | timedOut => rfl

/-- Counterexample to claim C2 as stated: the transformer is not
idempotent — the img rewrite re-fires on its own self-closed output,
turning `<img a />` into `<img a / />` on the second pass. -/
theorem cleanMarkdownForMDX_not_idem :
    cleanMarkdownForMDX (cleanMarkdownForMDX "<img a>") ≠ cleanMarkdownForMDX "<img a>" := by
  have h1 : cleanMarkdownForMDX "<img a>" = "<img a />" := by
    simp [cleanMarkdownForMDX, cleanMarkdownForMDXL, stripComments, replaceBr, replaceHr,
      replaceImg, takeToGt, dropComment]
  have h2 : cleanMarkdownForMDX "<img a />" = "<img a / />" := by
    simp [cleanMarkdownForMDX, cleanMarkdownForMDXL, stripComments, replaceBr, replaceHr,
      replaceImg, takeToGt, dropComment]
  rw [h1, h2]
  decide

/-- Claim C2 as amended: the transformer is idempotent on any input whose
first-pass output is free of all four rewrite triggers (no HTML comment,
no literal `<br>` or `<hr>`, no `<img ...>` match); in general a second
pass can differ, because the img rewrite re-fires on self-closed `<img
... />` output and comment stripping can splice adjacent text into a new
comment. -/
theorem cleanMarkdownForMDX_idem_of_noTriggers (x : String)
    (h : noTriggers (cleanMarkdownForMDX x).data = true) :
    cleanMarkdownForMDX (cleanMarkdownForMDX x) = cleanMarkdownForMDX x := by
  show String.mk (cleanMarkdownForMDXL (cleanMarkdownForMDX x).data) = cleanMarkdownForMDX x
  rw [cleanMarkdownForMDXL_id _ h]

/-- Witness for the amended C2 at a concrete input: `"a<br>b"` transforms
to `"a<br />b"`, which is trigger-free, so a second pass is a no-op. -/
theorem cleanMarkdownForMDX_idem_of_noTriggers_witness :
    noTriggers (cleanMarkdownForMDX "a<br>b").data = true ∧
    cleanMarkdownForMDX (cleanMarkdownForMDX "a<br>b") = cleanMarkdownForMDX "a<br>b" :=
  ⟨by
    simp [cleanMarkdownForMDX, cleanMarkdownForMDXL, stripComments, replaceBr, replaceHr,
      replaceImg, takeToGt, dropComment, noTriggers, hasComment, hasBr, hasHr, hasImg],
    cleanMarkdownForMDX_idem_of_noTriggers "a<br>b" (by
      simp [cleanMarkdownForMDX, cleanMarkdownForMDXL, stripComments, replaceBr, replaceHr,
        replaceImg, takeToGt, dropComment, noTriggers, hasComment, hasBr, hasHr, hasImg])⟩

/-- Counterexample to claim C3 as stated: with the default bound
`maxRedirects = 5`, a chain of exactly 5 redirects followed by a terminal
200 does not resolve — the download fails with the too-many-redirects
error after issuing exactly 5 requests, never requesting the final URL
that would have answered 200. -/
theorem download_chain_at_bound_fails :
    (download demoParse chainServer5 none "u0" {}).1 = .error (.tooManyRedirects 5) ∧
    (download demoParse chainServer5 none "u0" {}).2.length = 5 := by
  constructor <;>
    simp [download, downloadRecursive, chainServer5, tokenTruthy, demoParse, mkRequest]


/-- Claim C3 as amended: the downloader fails with the too-many-redirects
error exactly when the redirect chain reaches `maxRedirects`, not only
when it exceeds it (the bound check `redirectCount >= maxRedirects` runs
before each request): along a linear redirect chain, a download with
budget `maxRedirects - redirectCount` larger than the number of redirects
resolves with the terminal body and URL after one request per hop, while
a chain at least as long as the budget fails with the too-many-redirects
error after issuing exactly the budgeted number of requests and no more. -/
theorem downloadRecursive_chain_behavior
    (parse : String → URLParts) (server : String → HttpResp)
    (token : Option String) (isPrivate : Bool) (maxR t : Nat) :
    ∀ (chain : List String) (u body : String) (count : Nat),
      isChain server u chain body →
      (chain.length < maxR - count →
        (downloadRecursive parse server u token isPrivate maxR count t).1
            = .ok ⟨body, 200, chain.getLastD u⟩ ∧
        (downloadRecursive parse server u token isPrivate maxR count t).2.length
            = chain.length + 1) ∧
      (maxR - count ≤ chain.length →
        (downloadRecursive parse server u token isPrivate maxR count t).1
            = .error (.tooManyRedirects maxR) ∧
        (downloadRecursive parse server u token isPrivate maxR count t).2.length
            = maxR - count) := by
  intro chain
  induction chain with
  | nil =>
    intro u body count hc
    simp only [isChain] at hc
    constructor
    · intro hlt
      have hge : ¬ count ≥ maxR := by
        simp only [List.length_nil] at hlt
        omega
      have heq : downloadRecursive parse server u token isPrivate maxR count t
          = (.ok ⟨body, 200, u⟩, [mkRequest (parse u) token isPrivate t]) := by
        unfold downloadRecursive
        rw [dif_neg hge, hc]
        simp
      rw [heq]
      simp [List.getLastD]
    · intro hle
      have hge : count ≥ maxR := by
        simp only [List.length_nil] at hle
        omega
      have heq : downloadRecursive parse server u token isPrivate maxR count t
          = (.error (.tooManyRedirects maxR), []) := by
        unfold downloadRecursive
        rw [dif_pos hge]
      rw [heq]
      refine ⟨rfl, ?_⟩
      simp only [List.length_nil]
      omega
  | cons v rest ih =>
    intro u body count hc
    simp only [isChain] at hc
    obtain ⟨hstep, hrest⟩ := hc
    by_cases hge : count ≥ maxR
    · have heq : downloadRecursive parse server u token isPrivate maxR count t
          = (.error (.tooManyRedirects maxR), []) := by
        unfold downloadRecursive
        rw [dif_pos hge]
      constructor
      · intro hlt
        simp only [List.length_cons] at hlt
        omega
      · intro hle
        rw [heq]
        refine ⟨rfl, ?_⟩
        simp only [List.length_nil]
        omega
    · have hcall := ih v body (count + 1) hrest
      have heq : downloadRecursive parse server u token isPrivate maxR count t
          = ((downloadRecursive parse server v token isPrivate maxR (count + 1) t).1,
             mkRequest (parse u) token isPrivate t
               :: (downloadRecursive parse server v token isPrivate maxR (count + 1) t).2) := by
        conv_lhs => rw [downloadRecursive.eq_def]
        rw [dif_neg hge, hstep]
        simp
      constructor
      · intro hlt
        have hlt2 : rest.length < maxR - (count + 1) := by
          simp only [List.length_cons] at hlt
          omega
        obtain ⟨hA1, hA2⟩ := hcall.1 hlt2
        rw [heq]
        constructor
        · rw [hA1, List.getLastD_cons]
        · simp only [List.length_cons, hA2]
      · intro hle
        have hle2 : maxR - (count + 1) ≤ rest.length := by
          simp only [List.length_cons] at hle
          omega
        obtain ⟨hB1, hB2⟩ := hcall.2 hle2
        rw [heq]
        refine ⟨hB1, ?_⟩
        simp only [List.length_cons, hB2]
        omega

/-- Witness for the amended C3 at concrete inputs: against the 5-hop
chain server, starting one hop in (4 redirects remain, budget 5) the
download resolves with the terminal body and URL in 5 requests, while
starting at the head (5 redirects, budget 5) it fails with the
too-many-redirects error after exactly 5 requests. -/
theorem downloadRecursive_chain_behavior_witness :
    ((downloadRecursive demoParse chainServer5 "u1" none false 5 0 30000).1
        = .ok ⟨"payload", 200, "u5"⟩ ∧
      (downloadRecursive demoParse chainServer5 "u1" none false 5 0 30000).2.length = 5) ∧
    ((downloadRecursive demoParse chainServer5 "u0" none false 5 0 30000).1
        = .error (.tooManyRedirects 5) ∧
      (downloadRecursive demoParse chainServer5 "u0" none false 5 0 30000).2.length = 5) :=
  ⟨(downloadRecursive_chain_behavior demoParse chainServer5 none false 5 30000
      ["u2", "u3", "u4", "u5"] "u1" "payload" 0
      (by simp [isChain, chainServer5])).1 (by simp),
    (downloadRecursive_chain_behavior demoParse chainServer5 none false 5 30000
      ["u1", "u2", "u3", "u4", "u5"] "u0" "payload" 0
      (by simp [isChain, chainServer5])).2 (by simp)⟩

end MintlifySync
